import Mathlib

/-!
Shallow embedding of `particle_swarm_optimization.py`.

Modelling decisions:
* numpy vectors are functions `ℕ → ℚ` (componentwise arithmetic, as numpy
  broadcasts); float values reported to `notify_evaluation` are `WithBot ℚ`,
  whose bottom `⊥` plays the role of `-inf` (`best_value` is initialised to
  `-inf` in the source).
* `np.random.uniform(lo, hi)` is modelled by an explicit random draw
  `u : ℚ` per component, yielding `lo + u * (hi - lo)`; the draws are
  threaded as explicit arguments.
* Python assignment `self.best_global = self.particles[i]` stores an object
  REFERENCE: mutation of that particle remains visible through
  `self.best_global`.  This is modelled by `BestRef`: either the extra
  particle created in `__init__` (which is never mutated afterwards, so it
  can be held by value) or a live index into `particles`, dereferenced at
  every read.  Attribute assignments (`p.x = ...`) rebind the field to a new
  array, so `best_position = p.x` snapshots the vector itself; only the
  object-level alias is live.
* Python raising (the `None - array` TypeError when a particle reaches the
  update pass with `best_position is None`) is modelled by `Option`.
-/

/-- A numpy vector: componentwise rationals. -/
def Vec : Type := ℕ → ℚ

/-- Componentwise vector addition. -/
def vadd (a b : Vec) : Vec := fun k => a k + b k

/-- Componentwise vector subtraction. -/
def vsub (a b : Vec) : Vec := fun k => a k - b k

/-- Scalar times vector, broadcast componentwise. -/
def smul (c : ℚ) (a : Vec) : Vec := fun k => c * a k

/-- A particle of the swarm: fields of `Particle.__init__`. -/
structure Particle where
  x : Vec
  v : Vec
  current_value : Option (WithBot ℚ)
  best_position : Option Vec
  best_value : WithBot ℚ

instance : Inhabited Particle :=
  ⟨{ x := fun _ => 0, v := fun _ => 0, current_value := none
   , best_position := none, best_value := ⊥ }⟩

/-- `Particle.__init__(lower_bound, upper_bound)`: position drawn uniformly in
`[lower, upper)`, velocity in `[-delta, delta)` with `delta = upper - lower`;
`current_value = None`, `best_position = None`, `best_value = -inf`.
The uniform draws are the explicit per-component parameters `ux`, `uv`. -/
def Particle.init (lower upper ux uv : Vec) : Particle :=
  let delta : Vec := vsub upper lower
  { x := fun k => lower k + ux k * (upper k - lower k)
  , v := fun k => -delta k + uv k * (delta k - -delta k)
  , current_value := none
  , best_position := none
  , best_value := ⊥ }

/-- The hyperparameters object `hyperparams` (`self.hp`). -/
structure Params where
  num_particles : ℕ
  inertia_weight : ℚ
  cognitive_parameter : ℚ
  social_parameter : ℚ

/-- What `self.best_global` holds: a reference either to the extra particle
built in `__init__` (never mutated afterwards, held by value) or to a live
element of `self.particles`. -/
inductive BestRef where
  | extra (p : Particle)
  | idx (i : ℕ)

/-- Dereference a `BestRef` against the current particle list. -/
def derefParticle (ps : List Particle) : BestRef → Particle
  | BestRef.extra p => p
  | BestRef.idx i => ps.getD i default

/-- State of `ParticleSwarmOptimization`. -/
structure ParticleSwarmOptimization where
  hp : Params
  particles : List Particle
  best_global : BestRef
  count : ℕ

namespace ParticleSwarmOptimization

/-- `ParticleSwarmOptimization.__init__`: `num_particles` particles, one extra
randomly placed particle as initial `best_global`, `count = 0`.  `r i` gives
the uniform draws for the i-th `Particle(...)` call (the extra particle is the
call number `num_particles`). -/
def init (hp : Params) (lower upper : Vec) (r : ℕ → Vec × Vec) :
    ParticleSwarmOptimization :=
  { hp := hp
  , particles := (List.range hp.num_particles).map
      (fun i => Particle.init lower upper (r i).1 (r i).2)
  , best_global := BestRef.extra
      (Particle.init lower upper (r hp.num_particles).1 (r hp.num_particles).2)
  , count := 0 }

/-- The particle currently referenced by `self.best_global`. -/
def bestP (s : ParticleSwarmOptimization) : Particle :=
  derefParticle s.particles s.best_global

/-- `get_best_position`: `return self.best_global.x`. -/
def get_best_position (s : ParticleSwarmOptimization) : Vec := s.bestP.x

/-- `get_best_value`: `return self.best_global.best_value`. -/
def get_best_value (s : ParticleSwarmOptimization) : WithBot ℚ :=
  s.bestP.best_value

/-- `get_position_to_evaluate`: `return self.particles[self.count].x`; the
state is returned unchanged (the method only reads). -/
def get_position_to_evaluate (s : ParticleSwarmOptimization) :
    Vec × ParticleSwarmOptimization :=
  ((s.particles.getD s.count default).x, s)

end ParticleSwarmOptimization

/-- One comparison step of the first loop of `advance_generation`:
`if self.particles[i].best_value > self.best_global.best_value:
   self.best_global = self.particles[i]` (the assignment stores a reference). -/
def selStep (ps : List Particle) (b : BestRef) (i : ℕ) : BestRef :=
  if (derefParticle ps b).best_value < (ps.getD i default).best_value
  then BestRef.idx i else b

/-- The first loop of `advance_generation` (particles are not mutated during
this loop, so dereferencing against the fixed list is faithful). -/
def selectGlobal (s : ParticleSwarmOptimization) : BestRef :=
  (List.range s.hp.num_particles).foldl (selStep s.particles) s.best_global

/-- One iteration of the second loop of `advance_generation`: draws `rp`, `rg`,
assigns the new velocity then the new position of particle `i`.
`self.best_global.x` is dereferenced against the CURRENT particle list (the
alias is live); `best_position` being `None` makes the Python expression
`None - array` raise, modelled by `none`. -/
def updateStep (r : ℕ → ℚ × ℚ) (s : ParticleSwarmOptimization) (i : ℕ) :
    Option ParticleSwarmOptimization :=
  let p := s.particles.getD i default
  match p.best_position with
  | none => none
  | some bp =>
    let rp := (r i).1
    let rg := (r i).2
    let g := (derefParticle s.particles s.best_global).x
    let vNew := vadd (vadd (smul s.hp.inertia_weight p.v)
        (smul (rp * s.hp.cognitive_parameter) (vsub bp p.x)))
        (smul (rg * s.hp.social_parameter) (vsub g p.x))
    let xNew := vadd p.x vNew
    some { s with particles := s.particles.set i { p with v := vNew, x := xNew } }

namespace ParticleSwarmOptimization

/-- `advance_generation`: best-tracking loop, then the sequential update loop
(`r i` gives the pair `(rp, rg)` drawn for particle `i`), then `count = 0`. -/
def advance_generation (s : ParticleSwarmOptimization) (r : ℕ → ℚ × ℚ) :
    Option ParticleSwarmOptimization :=
  let s1 := { s with best_global := selectGlobal s }
  match (List.range s.hp.num_particles).foldlM (updateStep r) s1 with
  | none => none
  | some s2 => some { s2 with count := 0 }

/-- `notify_evaluation(value)`: record `current_value`, update the personal
best on strict improvement, advance `count`, and when `count` reaches
`num_particles` run `advance_generation`. -/
def notify_evaluation (s : ParticleSwarmOptimization) (value : WithBot ℚ)
    (r : ℕ → ℚ × ℚ) : Option ParticleSwarmOptimization :=
  let p := s.particles.getD s.count default
  let p1 := { p with current_value := some value }
  let p2 := if p1.best_value < value
    then { p1 with best_value := value, best_position := some p1.x }
    else p1
  let s1 := { s with
    particles := s.particles.set s.count p2,
    count := s.count + 1 }
  if s1.count = s1.hp.num_particles then s1.advance_generation r else some s1

end ParticleSwarmOptimization


/-! ### Derived definitions -/

/-- The `best_value` seen through a `BestRef` against a particle list. -/
def bvAt (ps : List Particle) (b : BestRef) : WithBot ℚ :=
  (derefParticle ps b).best_value

/-- What the second loop of `advance_generation` leaves untouched: everything
except positions and velocities. -/
def SameBests (s t : ParticleSwarmOptimization) : Prop :=
  t.hp = s.hp ∧ t.best_global = s.best_global ∧
  t.particles.length = s.particles.length ∧ t.count = s.count ∧
  ∀ i : ℕ,
    (t.particles.getD i default).best_position
      = (s.particles.getD i default).best_position ∧
    (t.particles.getD i default).best_value
      = (s.particles.getD i default).best_value ∧
    (t.particles.getD i default).current_value
      = (s.particles.getD i default).current_value

/-- The particle update performed by `notify_evaluation` on the evaluated
particle: record `current_value`; on strict improvement also update the
personal best pair (definitionally equal to the updates in
`notify_evaluation`). -/
def notifyP (p : Particle) (v : WithBot ℚ) : Particle :=
  if p.best_value < v
  then { p with
    current_value := some v,
    best_value := v,
    best_position := some p.x }
  else { p with current_value := some v }

/-- The state after the recording phase of `notify_evaluation` (before the
possible generation advance): the evaluated particle is replaced by its
`notifyP` update and `count` is incremented. -/
def ParticleSwarmOptimization.notifyMid (s : ParticleSwarmOptimization)
    (v : WithBot ℚ) : ParticleSwarmOptimization :=
  { s with
    particles := s.particles.set s.count
      (notifyP (s.particles.getD s.count default) v),
    count := s.count + 1 }

/-! ### Concrete example states

A two-particle swarm over bounds `[0, 10]` in every dimension, with
inertia 1/2, cognitive and social parameters 1, and fixed random draws:
particle 0 starts at position 1 with velocity 1, particle 1 at position 2
with velocity 1 (constant in every dimension), the extra particle at 0. -/

def exLower : Vec := fun _ => 0

def exUpper : Vec := fun _ => 10

def exDraws : ℕ → Vec × Vec := fun i =>
  if i = 0 then (fun _ => 1/10, fun _ => 11/20)
  else if i = 1 then (fun _ => 1/5, fun _ => 11/20)
  else (fun _ => 0, fun _ => 1/2)

def exHp : Params := ⟨2, 1/2, 1, 1⟩

def exR : ℕ → ℚ × ℚ := fun _ => (1/3, 1/4)

def exS0 : ParticleSwarmOptimization :=
  ParticleSwarmOptimization.init exHp exLower exUpper exDraws

/-- After notifying 3.0 for particle 0. -/
def exS1 : ParticleSwarmOptimization :=
  (exS0.notify_evaluation ((3:ℚ):WithBot ℚ) exR).getD exS0

/-- After further notifying 7.0 for particle 1 (one generation advance). -/
def exS2 : ParticleSwarmOptimization :=
  (exS1.notify_evaluation ((7:ℚ):WithBot ℚ) exR).getD exS1

/-- After notifying 7.0 for particle 0 (swarm best will be particle 0). -/
def exT1 : ParticleSwarmOptimization :=
  (exS0.notify_evaluation ((7:ℚ):WithBot ℚ) exR).getD exS0

/-- After further notifying 3.0 for particle 1 (one generation advance with
the swarm best being particle 0, which is updated before particle 1). -/
def exT2 : ParticleSwarmOptimization :=
  (exT1.notify_evaluation ((3:ℚ):WithBot ℚ) exR).getD exT1

/-- A one-particle swarm with the same bounds and draws as particle 0. -/
def exU0 : ParticleSwarmOptimization :=
  ParticleSwarmOptimization.init ⟨1, 1/2, 1, 1⟩ exLower exUpper
    (fun _ => (fun _ => 1/10, fun _ => 11/20))

/-- The one-particle swarm after notifying 5.0 (one generation advance). -/
def exU1 : ParticleSwarmOptimization :=
  (exU0.notify_evaluation ((5:ℚ):WithBot ℚ) exR).getD exU0

/-- The recording state inside the advance-triggering notify of the
7-then-3 run: both particles evaluated (best values 7 and 3), cursor at 2,
the generation advance about to run. -/
def exMid : ParticleSwarmOptimization := exT1.notifyMid ((3:ℚ):WithBot ℚ)

/-! ### Helper lemmas -/

lemma getD_set (l : List Particle) (i j : ℕ) (a d : Particle) :
    (l.set i a).getD j d = if i = j ∧ i < l.length then a else l.getD j d := by
  rcases Decidable.em (i = j) with h | h
  · subst h
    rcases Decidable.em (i < l.length) with hl | hl
    · simp [List.getD_eq_getElem?_getD, List.getElem?_set_self hl, hl]
    · simp [List.getD_eq_getElem?_getD, List.getElem?_set, hl,
        List.getElem?_eq_none (not_lt.mp hl)]
  · simp [List.getD_eq_getElem?_getD, List.getElem?_set_ne h, h]

lemma bvAt_selStep (ps : List Particle) (b : BestRef) (i : ℕ) :
    bvAt ps b ≤ bvAt ps (selStep ps b i) := by
  unfold selStep
  split_ifs with h
  · exact le_of_lt h
  · exact le_refl _

lemma bvAt_foldl_selStep (ps : List Particle) (l : List ℕ) :
    ∀ b : BestRef, bvAt ps b ≤ bvAt ps (l.foldl (selStep ps) b) := by
  induction l with
  | nil => intro b; exact le_refl _
  | cons a l ih =>
    intro b
    exact le_trans (bvAt_selStep ps b a) (ih (selStep ps b a))

lemma get_best_value_eq_bvAt (s : ParticleSwarmOptimization) :
    s.get_best_value = bvAt s.particles s.best_global := rfl

lemma get_best_value_selectGlobal (s : ParticleSwarmOptimization) :
    s.get_best_value ≤ bvAt s.particles (selectGlobal s) := by
  unfold selectGlobal
  exact bvAt_foldl_selStep s.particles (List.range s.hp.num_particles)
    s.best_global

lemma sameBests_refl (s : ParticleSwarmOptimization) : SameBests s s :=
  ⟨rfl, rfl, rfl, rfl, fun _ => ⟨rfl, rfl, rfl⟩⟩

lemma sameBests_trans {s t u : ParticleSwarmOptimization}
    (h1 : SameBests s t) (h2 : SameBests t u) : SameBests s u := by
  obtain ⟨a1, b1, c1, d1, e1⟩ := h1
  obtain ⟨a2, b2, c2, d2, e2⟩ := h2
  refine ⟨a2.trans a1, b2.trans b1, c2.trans c1, d2.trans d1, fun i => ?_⟩
  obtain ⟨p1, q1, r1⟩ := e1 i
  obtain ⟨p2, q2, r2⟩ := e2 i
  exact ⟨p2.trans p1, q2.trans q1, r2.trans r1⟩

lemma updateStep_sameBests {r : ℕ → ℚ × ℚ} {s t : ParticleSwarmOptimization}
    {i : ℕ} (h : updateStep r s i = some t) : SameBests s t := by
  unfold updateStep at h
  cases hbp : (s.particles.getD i default).best_position with
  | none =>
    simp only [hbp] at h
    exact Option.noConfusion h
  | some bp =>
    simp only [hbp] at h
    obtain rfl := Option.some.inj h
    refine ⟨rfl, rfl, List.length_set .., rfl, fun j => ?_⟩
    simp only [getD_set]
    split_ifs with hij
    · obtain ⟨rfl, _⟩ := hij
      exact ⟨by rw [hbp], rfl, rfl⟩
    · exact ⟨rfl, rfl, rfl⟩

lemma foldlM_updateStep_sameBests {r : ℕ → ℚ × ℚ} (l : List ℕ) :
    ∀ {s t : ParticleSwarmOptimization},
      l.foldlM (updateStep r) s = some t → SameBests s t := by
  induction l with
  | nil =>
    intro s t h
    obtain rfl := Option.some.inj h
    exact sameBests_refl s
  | cons a l ih =>
    intro s t h
    rw [List.foldlM_cons] at h
    cases h1 : updateStep r s a with
    | none => rw [h1] at h; simp at h
    | some s1 =>
      rw [h1] at h
      simp only [Option.bind_eq_bind, Option.some_bind] at h
      exact sameBests_trans (updateStep_sameBests h1) (ih h)

lemma sameBests_bvAt {s t : ParticleSwarmOptimization} (h : SameBests s t)
    (b : BestRef) : bvAt t.particles b = bvAt s.particles b := by
  cases b with
  | extra p => rfl
  | idx i => exact (h.2.2.2.2 i).2.1

lemma notify_eq (s : ParticleSwarmOptimization) (v : WithBot ℚ)
    (r : ℕ → ℚ × ℚ) :
    s.notify_evaluation v r =
      if s.count + 1 = s.hp.num_particles
      then (s.notifyMid v).advance_generation r
      else some (s.notifyMid v) := rfl

lemma notifyP_best_value_ge (p : Particle) (v : WithBot ℚ) :
    p.best_value ≤ (notifyP p v).best_value := by
  unfold notifyP
  split_ifs with h
  · exact le_of_lt h
  · exact le_refl _

lemma bvAt_set_ge (ps : List Particle) (c : ℕ) (a : Particle)
    (hge : (ps.getD c default).best_value ≤ a.best_value) (b : BestRef) :
    bvAt ps b ≤ bvAt (ps.set c a) b := by
  cases b with
  | extra p => exact le_refl _
  | idx j =>
    simp only [bvAt, derefParticle]
    rw [getD_set]
    split_ifs with h
    · obtain ⟨rfl, _⟩ := h
      exact hge
    · exact le_refl _

lemma get_best_value_advance {s s' : ParticleSwarmOptimization}
    {r : ℕ → ℚ × ℚ} (h : s.advance_generation r = some s') :
    s.get_best_value ≤ s'.get_best_value := by
  simp only [ParticleSwarmOptimization.advance_generation] at h
  cases hf : (List.range s.hp.num_particles).foldlM (updateStep r)
      { s with best_global := selectGlobal s } with
  | none =>
    rw [hf] at h
    exact Option.noConfusion h
  | some s2 =>
    rw [hf] at h
    obtain rfl := Option.some.inj h
    have hsame := foldlM_updateStep_sameBests _ hf
    have hval : ParticleSwarmOptimization.get_best_value
        { s2 with count := 0 } = bvAt s2.particles s2.best_global := rfl
    rw [hval, hsame.2.1, sameBests_bvAt hsame]
    exact get_best_value_selectGlobal s

lemma notifyP_current (p : Particle) (v : WithBot ℚ) :
    (notifyP p v).current_value = some v := by
  unfold notifyP
  split_ifs <;> rfl

lemma notifyP_x (p : Particle) (v : WithBot ℚ) : (notifyP p v).x = p.x := by
  unfold notifyP
  split_ifs <;> rfl

lemma notifyP_v (p : Particle) (v : WithBot ℚ) : (notifyP p v).v = p.v := by
  unfold notifyP
  split_ifs <;> rfl

lemma notifyP_improve {p : Particle} {v : WithBot ℚ} (h : p.best_value < v) :
    (notifyP p v).best_value = v ∧ (notifyP p v).best_position = some p.x := by
  unfold notifyP
  rw [if_pos h]
  exact ⟨rfl, rfl⟩

lemma notifyP_keep {p : Particle} {v : WithBot ℚ} (h : ¬ p.best_value < v) :
    (notifyP p v).best_value = p.best_value ∧
    (notifyP p v).best_position = p.best_position := by
  unfold notifyP
  rw [if_neg h]
  exact ⟨rfl, rfl⟩

lemma notifyP_pair (p : Particle) (v : WithBot ℚ) :
    p.best_value ≤ (notifyP p v).best_value ∧
    (((notifyP p v).best_position = p.best_position ∧
      (notifyP p v).best_value = p.best_value) ∨
     (p.best_value < v ∧ (notifyP p v).best_value = v ∧
      (notifyP p v).best_position = some p.x)) := by
  unfold notifyP
  split_ifs with h
  · exact ⟨le_of_lt h, Or.inr ⟨h, rfl, rfl⟩⟩
  · exact ⟨le_refl _, Or.inl ⟨rfl, rfl⟩⟩

lemma notifyMid_getD (s : ParticleSwarmOptimization) (v : WithBot ℚ)
    (i : ℕ) :
    (s.notifyMid v).particles.getD i default =
      if s.count = i ∧ s.count < s.particles.length
      then notifyP (s.particles.getD s.count default) v
      else s.particles.getD i default :=
  getD_set s.particles s.count i _ default

lemma notifyMid_pair (s : ParticleSwarmOptimization) (v : WithBot ℚ)
    (i : ℕ) :
    (s.particles.getD i default).best_value
      ≤ ((s.notifyMid v).particles.getD i default).best_value ∧
    ((((s.notifyMid v).particles.getD i default).best_position
        = (s.particles.getD i default).best_position ∧
      ((s.notifyMid v).particles.getD i default).best_value
        = (s.particles.getD i default).best_value) ∨
     ((s.particles.getD i default).best_value < v ∧
      ((s.notifyMid v).particles.getD i default).best_value = v ∧
      ((s.notifyMid v).particles.getD i default).best_position
        = some (s.particles.getD i default).x)) := by
  rw [notifyMid_getD]
  split_ifs with hct
  · obtain ⟨hci, _⟩ := hct
    subst hci
    exact notifyP_pair _ _
  · exact ⟨le_refl _, Or.inl ⟨rfl, rfl⟩⟩

lemma advance_preserves {s s' : ParticleSwarmOptimization}
    {r : ℕ → ℚ × ℚ} (h : s.advance_generation r = some s') :
    s'.hp = s.hp ∧ s'.count = 0 ∧
    s'.particles.length = s.particles.length ∧
    ∀ i : ℕ,
      (s'.particles.getD i default).best_position
        = (s.particles.getD i default).best_position ∧
      (s'.particles.getD i default).best_value
        = (s.particles.getD i default).best_value ∧
      (s'.particles.getD i default).current_value
        = (s.particles.getD i default).current_value := by
  simp only [ParticleSwarmOptimization.advance_generation] at h
  cases hf : (List.range s.hp.num_particles).foldlM (updateStep r)
      { s with best_global := selectGlobal s } with
  | none =>
    rw [hf] at h
    exact Option.noConfusion h
  | some s2 =>
    rw [hf] at h
    obtain rfl := Option.some.inj h
    have hsame := foldlM_updateStep_sameBests _ hf
    exact ⟨hsame.1, rfl, hsame.2.2.1, fun i => hsame.2.2.2.2 i⟩

/-- C5: across any completed `notify_evaluation` call (including the
generation advance it may trigger), `get_best_value` never decreases. -/
theorem get_best_value_monotone {s s' : ParticleSwarmOptimization}
    {v : WithBot ℚ} {r : ℕ → ℚ × ℚ}
    (h : s.notify_evaluation v r = some s') :
    s.get_best_value ≤ s'.get_best_value := by
  rw [notify_eq] at h
  have hmid : s.get_best_value ≤ (s.notifyMid v).get_best_value :=
    bvAt_set_ge s.particles s.count _ (notifyP_best_value_ge _ _)
      s.best_global
  split_ifs at h with hc
  · exact le_trans hmid (get_best_value_advance h)
  · obtain rfl := Option.some.inj h
    exact hmid

/-- C5 witness: on the concrete two-particle run, the best value does not
decrease across the notify call that triggers the generation advance. -/
theorem get_best_value_monotone_witness :
    exS1.get_best_value ≤ exS2.get_best_value :=
  get_best_value_monotone
    (show exS1.notify_evaluation ((7:ℚ):WithBot ℚ) exR = some exS2 by
      with_unfolding_all rfl)

/-- C6: across any completed `notify_evaluation` call each particle's
`best_value` never decreases, and its personal best pair either stays
exactly as it was or is rewritten as a whole (`best_value` to the reported
value, `best_position` to the particle's current position) on strict
improvement — never one field without the other. -/
theorem particle_best_monotone {s s' : ParticleSwarmOptimization}
    {v : WithBot ℚ} {r : ℕ → ℚ × ℚ}
    (h : s.notify_evaluation v r = some s') (i : ℕ) :
    (s.particles.getD i default).best_value
      ≤ (s'.particles.getD i default).best_value ∧
    (((s'.particles.getD i default).best_position
        = (s.particles.getD i default).best_position ∧
      (s'.particles.getD i default).best_value
        = (s.particles.getD i default).best_value) ∨
     ((s.particles.getD i default).best_value < v ∧
      (s'.particles.getD i default).best_value = v ∧
      (s'.particles.getD i default).best_position
        = some (s.particles.getD i default).x)) := by
  rw [notify_eq] at h
  split_ifs at h with hc
  · have hp := (advance_preserves h).2.2.2 i
    rw [hp.1, hp.2.1]
    exact notifyMid_pair s v i
  · obtain rfl := Option.some.inj h
    exact notifyMid_pair s v i

/-- C6 witness: particle 1's best value does not decrease across the
advance-triggering notify of the concrete run. -/
theorem particle_best_monotone_witness :
    (exS1.particles.getD 1 default).best_value
      ≤ (exS2.particles.getD 1 default).best_value :=
  (particle_best_monotone
    (show exS1.notify_evaluation ((7:ℚ):WithBot ℚ) exR = some exS2 by
      with_unfolding_all rfl) 1).1

/-- C10: a completed generation advance reassigns positions and velocities
but leaves every particle's recorded personal best pair (`best_position`,
`best_value`) exactly as it was; the stored `best_position` vector is the
snapshot taken when the best was recorded, not a live view of the moving
particle. -/
theorem advance_keeps_personal_best {s s' : ParticleSwarmOptimization}
    {r : ℕ → ℚ × ℚ} (h : s.advance_generation r = some s') (i : ℕ) :
    (s'.particles.getD i default).best_position
      = (s.particles.getD i default).best_position ∧
    (s'.particles.getD i default).best_value
      = (s.particles.getD i default).best_value :=
  ⟨((advance_preserves h).2.2.2 i).1, ((advance_preserves h).2.2.2 i).2.1⟩

/-- C10 witness: in the concrete run, particle 1's recorded best position
survives the generation advance unchanged (while its live position moves). -/
theorem advance_keeps_personal_best_witness :
    (exS2.particles.getD 1 default).best_position
      = ((exS1.notifyMid ((7:ℚ):WithBot ℚ)).particles.getD 1 default).best_position
      ∧
    (exS2.particles.getD 1 default).best_value
      = ((exS1.notifyMid ((7:ℚ):WithBot ℚ)).particles.getD 1 default).best_value :=
  advance_keeps_personal_best
    (show (exS1.notifyMid ((7:ℚ):WithBot ℚ)).advance_generation exR = some exS2 by
      with_unfolding_all rfl) 1

lemma updateStep_isSome {r : ℕ → ℚ × ℚ} {s : ParticleSwarmOptimization}
    {i : ℕ} (h : ((s.particles.getD i default).best_position).isSome) :
    ∃ t, updateStep r s i = some t := by
  unfold updateStep
  cases hbp : (s.particles.getD i default).best_position with
  | none => rw [hbp] at h; exact absurd h (by simp)
  | some bp =>
    simp only [hbp]
    exact ⟨_, rfl⟩

lemma foldlM_updateStep_isSome {r : ℕ → ℚ × ℚ} (l : List ℕ) :
    ∀ {s : ParticleSwarmOptimization},
      (∀ i ∈ l, ((s.particles.getD i default).best_position).isSome) →
      ∃ t, l.foldlM (updateStep r) s = some t := by
  induction l with
  | nil => exact fun _ => ⟨_, rfl⟩
  | cons a l ih =>
    intro s h
    obtain ⟨t1, h1⟩ := updateStep_isSome (r := r)
      (h a (List.mem_cons_self a l))
    have hpres := updateStep_sameBests h1
    obtain ⟨t2, h2⟩ := ih (s := t1) (fun i hi => by
      rw [(hpres.2.2.2.2 i).1]
      exact h i (List.mem_cons_of_mem a hi))
    refine ⟨t2, ?_⟩
    rw [List.foldlM_cons, h1]
    simpa using h2

lemma advance_isSome {s : ParticleSwarmOptimization} {r : ℕ → ℚ × ℚ}
    (h : ∀ i, i < s.hp.num_particles →
      ((s.particles.getD i default).best_position).isSome) :
    ∃ s', s.advance_generation r = some s' := by
  simp only [ParticleSwarmOptimization.advance_generation]
  obtain ⟨t, ht⟩ := foldlM_updateStep_isSome (r := r)
    (List.range s.hp.num_particles)
    (s := { s with best_global := selectGlobal s })
    (fun i hi => h i (List.mem_range.mp hi))
  rw [ht]
  exact ⟨_, rfl⟩

/-- C7: a completed `notify_evaluation(value)` records `value` as the
evaluated particle's `current_value`; on strict improvement
(`value > best_value`) it rewrites that particle's best pair and otherwise
leaves it; the cursor becomes `count + 1`, except that the
`num_particles`-th call triggers exactly one generation advance and resets
the cursor to 0; when no advance is triggered, `best_global` and every
particle's position and velocity are untouched. -/
theorem notify_spec {s s' : ParticleSwarmOptimization} {v : WithBot ℚ}
    {r : ℕ → ℚ × ℚ} (hn : s.count < s.hp.num_particles)
    (hlen : s.particles.length = s.hp.num_particles)
    (h : s.notify_evaluation v r = some s') :
    (s'.particles.getD s.count default).current_value = some v ∧
    ((s.particles.getD s.count default).best_value < v →
      (s'.particles.getD s.count default).best_value = v ∧
      (s'.particles.getD s.count default).best_position
        = some (s.particles.getD s.count default).x) ∧
    (¬ (s.particles.getD s.count default).best_value < v →
      (s'.particles.getD s.count default).best_value
        = (s.particles.getD s.count default).best_value ∧
      (s'.particles.getD s.count default).best_position
        = (s.particles.getD s.count default).best_position) ∧
    s'.count = (if s.count + 1 = s.hp.num_particles then 0
      else s.count + 1) ∧
    (s.count + 1 ≠ s.hp.num_particles →
      s'.best_global = s.best_global ∧
      ∀ i, (s'.particles.getD i default).x
          = (s.particles.getD i default).x ∧
        (s'.particles.getD i default).v
          = (s.particles.getD i default).v) := by
  have hcnt : s.count < s.particles.length := hlen ▸ hn
  have hmid : (s.notifyMid v).particles.getD s.count default
      = notifyP (s.particles.getD s.count default) v := by
    rw [notifyMid_getD]
    rw [if_pos ⟨rfl, hcnt⟩]
  rw [notify_eq] at h
  split_ifs at h with hc
  · have P := advance_preserves h
    have hpair := P.2.2.2 s.count
    refine ⟨?_, ?_, ?_, ?_, ?_⟩
    · rw [hpair.2.2, hmid, notifyP_current]
    · intro himp
      rw [hpair.2.1, hpair.1, hmid]
      exact ⟨(notifyP_improve himp).1, (notifyP_improve himp).2⟩
    · intro hkeep
      rw [hpair.2.1, hpair.1, hmid]
      exact ⟨(notifyP_keep hkeep).1, (notifyP_keep hkeep).2⟩
    · rw [P.2.1, if_pos hc]
    · intro hnc
      exact absurd hc hnc
  · obtain rfl := Option.some.inj h
    refine ⟨?_, ?_, ?_, ?_, ?_⟩
    · rw [hmid, notifyP_current]
    · intro himp
      rw [hmid]
      exact ⟨(notifyP_improve himp).1, (notifyP_improve himp).2⟩
    · intro hkeep
      rw [hmid]
      exact ⟨(notifyP_keep hkeep).1, (notifyP_keep hkeep).2⟩
    · rw [if_neg hc]
      rfl
    · intro _
      refine ⟨rfl, fun i => ?_⟩
      rw [notifyMid_getD]
      split_ifs with hct
      · obtain ⟨hci, _⟩ := hct
        subst hci
        exact ⟨notifyP_x _ _, notifyP_v _ _⟩
      · exact ⟨rfl, rfl⟩

/-- C7 witness: applying the spec to the first notify of the concrete run
(value 3.0, no advance triggered): the current value is recorded and the
cursor moves to 1. -/
theorem notify_spec_witness :
    (exS1.particles.getD exS0.count default).current_value
      = some ((3:ℚ):WithBot ℚ) ∧
    exS1.count = (if exS0.count + 1 = exS0.hp.num_particles then 0
      else exS0.count + 1) :=
  ⟨(notify_spec (show exS0.count < exS0.hp.num_particles by
        with_unfolding_all decide)
      (show exS0.particles.length = exS0.hp.num_particles by
        with_unfolding_all rfl)
      (show exS0.notify_evaluation ((3:ℚ):WithBot ℚ) exR = some exS1 by
        with_unfolding_all rfl)).1,
   (notify_spec (show exS0.count < exS0.hp.num_particles by
        with_unfolding_all decide)
      (show exS0.particles.length = exS0.hp.num_particles by
        with_unfolding_all rfl)
      (show exS0.notify_evaluation ((3:ℚ):WithBot ℚ) exR = some exS1 by
        with_unfolding_all rfl)).2.2.2.1⟩

/-- C4 counterexample: the optimizer is not failure-free.  For a
one-particle swarm whose only evaluation is reported as `-inf` (`⊥`), the
triggered generation advance reaches the update loop with
`best_position = None` (since `-inf > -inf` is false, no personal best was
ever recorded) and the Python expression
`self.particles[i].best_position - self.particles[i].x` raises; the
embedding returns `none`. -/
theorem notify_error_on_bot :
    exU0.notify_evaluation ⊥ exR = none := by
  with_unfolding_all rfl

/-- C4 amended: every `notify_evaluation` call completes normally provided
every particle of the swarm already has a recorded personal best
(`best_position` set), which is the case as soon as each particle has
received at least one value strictly above `-inf`; without that, the
generation advance reaches the error branch (see the counterexample). -/
theorem notify_total {s : ParticleSwarmOptimization} (v : WithBot ℚ)
    (r : ℕ → ℚ × ℚ)
    (h : ∀ i, i < s.hp.num_particles →
      ((s.particles.getD i default).best_position).isSome) :
    ∃ s', s.notify_evaluation v r = some s' := by
  rw [notify_eq]
  split_ifs with hc
  · apply advance_isSome
    intro i hi
    rw [notifyMid_getD]
    split_ifs with hct
    · obtain ⟨hci, _⟩ := hct
      subst hci
      have hp := h s.count hi
      unfold notifyP
      split_ifs
      · rfl
      · exact hp
    · exact h i hi
  · exact ⟨_, rfl⟩

/-- C4 witness: after one full generation of the concrete run (both
particles have recorded bests), a further notify completes. -/
theorem notify_total_witness :
    ∃ s', exS2.notify_evaluation ((1:ℚ):WithBot ℚ) exR = some s' :=
  notify_total ((1:ℚ):WithBot ℚ) exR (fun i hi => by
    have h2 : exS2.hp.num_particles = 2 := by with_unfolding_all rfl
    rw [h2] at hi
    match i with
    | 0 => with_unfolding_all rfl
    | 1 => with_unfolding_all rfl
    | n + 2 => exact absurd hi (by omega))

lemma updateStep_formula {r : ℕ → ℚ × ℚ} {s : ParticleSwarmOptimization}
    {i : ℕ} {bp : Vec}
    (hbp : (s.particles.getD i default).best_position = some bp)
    (hi : i < s.particles.length) :
    ∃ t, updateStep r s i = some t ∧
      (∀ k, (t.particles.getD i default).v k =
        s.hp.inertia_weight * (s.particles.getD i default).v k
        + (r i).1 * s.hp.cognitive_parameter
          * (bp k - (s.particles.getD i default).x k)
        + (r i).2 * s.hp.social_parameter
          * ((derefParticle s.particles s.best_global).x k
            - (s.particles.getD i default).x k)) ∧
      (∀ k, (t.particles.getD i default).x k =
        (s.particles.getD i default).x k
        + (t.particles.getD i default).v k) ∧
      (∀ j, j ≠ i →
        t.particles.getD j default = s.particles.getD j default) ∧
      t.best_global = s.best_global ∧ t.hp = s.hp ∧ t.count = s.count := by
  unfold updateStep
  simp only [hbp]
  refine ⟨_, rfl, ?_, ?_, ?_, rfl, rfl, rfl⟩
  · intro k
    simp only [getD_set]
    rw [if_pos (⟨trivial, hi⟩ : True ∧ i < s.particles.length)]
    simp only [vadd, vsub, smul]
  · intro k
    simp only [getD_set]
    rw [if_pos (⟨trivial, hi⟩ : True ∧ i < s.particles.length)]
    rfl
  · intro j hj
    simp only [getD_set]
    rw [if_neg (fun h => hj (And.left h).symm)]

lemma advance_eq_of_foldlM {s t : ParticleSwarmOptimization}
    {r : ℕ → ℚ × ℚ}
    (hf : (List.range s.hp.num_particles).foldlM (updateStep r)
      { s with best_global := selectGlobal s } = some t) :
    s.advance_generation r = some { t with count := 0 } := by
  simp only [ParticleSwarmOptimization.advance_generation]
  rw [hf]

/-- C3 amended: one iteration of the update loop gives particle `i` the new
velocity `w*v + rp*c*(best_position - x) + rg*s*(best_global.x - x)` and the
new position `x + new velocity`, where `best_global.x` is read LIVE through
the alias against the current particle list at the time of that particle's
update — so particles updated after the aliased best particle see its
already-moved position, not a swarm-best position fixed for the whole
pass. -/
theorem update_step_formula_live {r : ℕ → ℚ × ℚ}
    {s : ParticleSwarmOptimization} {i : ℕ} {bp : Vec}
    (hbp : (s.particles.getD i default).best_position = some bp)
    (hi : i < s.particles.length) :
    ∃ t, updateStep r s i = some t ∧
      (∀ k, (t.particles.getD i default).v k =
        s.hp.inertia_weight * (s.particles.getD i default).v k
        + (r i).1 * s.hp.cognitive_parameter
          * (bp k - (s.particles.getD i default).x k)
        + (r i).2 * s.hp.social_parameter
          * ((derefParticle s.particles s.best_global).x k
            - (s.particles.getD i default).x k)) ∧
      (∀ k, (t.particles.getD i default).x k =
        (s.particles.getD i default).x k
        + (t.particles.getD i default).v k) ∧
      (∀ j, j ≠ i →
        t.particles.getD j default = s.particles.getD j default) ∧
      t.best_global = s.best_global ∧ t.hp = s.hp ∧ t.count = s.count :=
  updateStep_formula hbp hi

/-- C3 amended witness: the formula applied to particle 0 of the concrete
pre-advance state. -/
theorem update_step_formula_live_witness :
    ∃ t, updateStep exR exMid 0 = some t ∧
      (∀ k, (t.particles.getD 0 default).v k =
        exMid.hp.inertia_weight * (exMid.particles.getD 0 default).v k
        + (exR 0).1 * exMid.hp.cognitive_parameter
          * ((((exMid.particles.getD 0 default).best_position).getD
              (fun _ => 0)) k
            - (exMid.particles.getD 0 default).x k)
        + (exR 0).2 * exMid.hp.social_parameter
          * ((derefParticle exMid.particles exMid.best_global).x k
            - (exMid.particles.getD 0 default).x k)) ∧
      (∀ k, (t.particles.getD 0 default).x k =
        (exMid.particles.getD 0 default).x k
        + (t.particles.getD 0 default).v k) ∧
      (∀ j, j ≠ 0 →
        t.particles.getD j default = exMid.particles.getD j default) ∧
      t.best_global = exMid.best_global ∧ t.hp = exMid.hp ∧
      t.count = exMid.count :=
  update_step_formula_live
    (show (exMid.particles.getD 0 default).best_position
        = some (((exMid.particles.getD 0 default).best_position).getD
          (fun _ => 0)) by with_unfolding_all rfl)
    (show 0 < exMid.particles.length by with_unfolding_all decide)

/-- C3 counterexample: the update formula with the swarm-best position
FIXED for the whole pass (as selected by the best-tracking loop) is wrong.
In the 7-then-3 run the best particle is particle 0; it is updated first
and `best_global` aliases it, so particle 1's update reads particle 0's
already-moved position: the velocity actually assigned to particle 1 is
3/8, while the fixed-best formula would give 1/4. -/
theorem update_formula_fixed_global_false :
    exMid.advance_generation exR = some exT2 ∧
    (exT2.particles.getD 1 default).v 0 ≠
      exMid.hp.inertia_weight * (exMid.particles.getD 1 default).v 0
      + (exR 1).1 * exMid.hp.cognitive_parameter
        * ((((exMid.particles.getD 1 default).best_position).getD
            (fun _ => 0)) 0
          - (exMid.particles.getD 1 default).x 0)
      + (exR 1).2 * exMid.hp.social_parameter
        * ((derefParticle exMid.particles (selectGlobal exMid)).x 0
          - (exMid.particles.getD 1 default).x 0) := by
  constructor
  · with_unfolding_all rfl
  · intro hcon
    have h1 : (exT2.particles.getD 1 default).v 0 = 3/8 := by
      with_unfolding_all rfl
    have h2 : exMid.hp.inertia_weight * (exMid.particles.getD 1 default).v 0
        + (exR 1).1 * exMid.hp.cognitive_parameter
          * ((((exMid.particles.getD 1 default).best_position).getD
              (fun _ => 0)) 0
            - (exMid.particles.getD 1 default).x 0)
        + (exR 1).2 * exMid.hp.social_parameter
          * ((derefParticle exMid.particles (selectGlobal exMid)).x 0
            - (exMid.particles.getD 1 default).x 0) = 1/4 := by
      with_unfolding_all rfl
    rw [h1, h2] at hcon
    norm_num at hcon

/-- C1 counterexample: the global best is NOT a by-value snapshot.  In the
two-particle run notified 3.0 then 7.0, `get_best_value()` is 7.0 as the
claim says, but `get_best_position()` does not match the second particle's
position as it was when evaluated (captured via
`get_position_to_evaluate()` just before the second notify): the particle
moved in the update pass and the alias tracks it. -/
theorem global_best_not_snapshot :
    exS2.get_best_value = ((7:ℚ):WithBot ℚ) ∧
    exS2.get_best_position 0 ≠ (exS1.get_position_to_evaluate).1 0 := by
  constructor
  · with_unfolding_all rfl
  · intro hcon
    have h1 : exS2.get_best_position 0 = 5/2 := by with_unfolding_all rfl
    have h2 : (exS1.get_position_to_evaluate).1 0 = 2 := by
      with_unfolding_all rfl
    rw [h1, h2] at hcon
    norm_num at hcon

/-- C1 amended: after the advance selects the second particle,
`best_global` ALIASES that live particle: `get_best_value()` is 7.0 (moves
never change `best_value`), but `get_best_position()` returns the
particle's current — moved — position (here 5/2: the snapshot position 2
plus inertia 1/2 times velocity 1), and it coincides with the live
`particles[1].x`, not with the position that was evaluated. -/
theorem global_best_aliases_live_particle :
    exS2.get_best_value = ((7:ℚ):WithBot ℚ) ∧
    exS2.best_global = BestRef.idx 1 ∧
    exS2.get_best_position 0 = (exS2.particles.getD 1 default).x 0 ∧
    exS2.get_best_position 0 = 5/2 ∧
    (exS1.get_position_to_evaluate).1 0 = 2 := by
  refine ⟨?_, ?_, ?_, ?_, ?_⟩ <;> with_unfolding_all rfl

/-- C2 counterexample: for the concrete one-particle optimizer, after
capturing `x0 = get_position_to_evaluate()` and calling
`notify_evaluation(5.0)`, `get_best_value()` is 5.0 as the claim says, but
`get_best_position()` differs from `x0`: the single particle (which
`best_global` aliases) was moved by the triggered generation advance. -/
theorem one_particle_best_position_moves :
    exU1.get_best_value = ((5:ℚ):WithBot ℚ) ∧
    exU1.get_best_position 0 ≠ (exU0.get_position_to_evaluate).1 0 := by
  constructor
  · with_unfolding_all rfl
  · intro hcon
    have h1 : exU1.get_best_position 0 = 3/2 := by with_unfolding_all rfl
    have h2 : (exU0.get_position_to_evaluate).1 0 = 1 := by
      with_unfolding_all rfl
    rw [h1, h2] at hcon
    norm_num at hcon

/-- C2 amended: for every one-particle optimizer (any hyperparameters,
bounds and random draws) and any real value `v`, the call
`notify_evaluation(v)` completes, `get_best_value()` afterwards returns
`v`, and `get_best_position()` returns NOT the captured
`x0 = get_position_to_evaluate()` but the moved position
`x0 + inertia_weight * v0` (`v0` the particle's initial velocity): the
cognitive and social terms vanish for the best particle itself, so it
drifts by inertia, and the aliased `best_global` reports the drifted
position. -/
theorem one_particle_notify_moved (w c soc : ℚ) (lower upper : Vec)
    (rinit : ℕ → Vec × Vec) (r : ℕ → ℚ × ℚ) (v : ℚ) :
    ∃ s', (ParticleSwarmOptimization.init ⟨1, w, c, soc⟩ lower upper
        rinit).notify_evaluation ((v:ℚ) : WithBot ℚ) r = some s' ∧
      s'.get_best_value = ((v:ℚ) : WithBot ℚ) ∧
      ∀ k, s'.get_best_position k =
        ((ParticleSwarmOptimization.init ⟨1, w, c, soc⟩ lower upper
          rinit).get_position_to_evaluate).1 k
        + w * (Particle.init lower upper (rinit 0).1 (rinit 0).2).v k := by
  set p0 : Particle := Particle.init lower upper (rinit 0).1 (rinit 0).2
    with hp0
  set s0 : ParticleSwarmOptimization :=
    ParticleSwarmOptimization.init ⟨1, w, c, soc⟩ lower upper rinit with hs0
  have himp : (s0.particles.getD s0.count default).best_value
      < ((v:ℚ) : WithBot ℚ) := by
    show (⊥ : WithBot ℚ) < ((v:ℚ) : WithBot ℚ)
    exact WithBot.bot_lt_coe v
  set s1 : ParticleSwarmOptimization :=
    { s0.notifyMid ((v:ℚ) : WithBot ℚ) with
      best_global := selectGlobal (s0.notifyMid ((v:ℚ) : WithBot ℚ)) }
    with hs1
  have hq : s1.particles.getD 0 default
      = notifyP p0 ((v:ℚ) : WithBot ℚ) := rfl
  have hbp : (s1.particles.getD 0 default).best_position = some p0.x := by
    rw [hq]
    exact (notifyP_improve himp).2
  have hi0 : 0 < s1.particles.length := Nat.zero_lt_one
  obtain ⟨t, ht, hv, hx, _, hbg, hhp, hcnt⟩ :=
    updateStep_formula (r := r) hbp hi0
  have hsel : s1.best_global = BestRef.idx 0 := by with_unfolding_all rfl
  have hfold0 : ([0] : List ℕ).foldlM (updateStep r) s1 = some t := by
    rw [List.foldlM_cons, ht]
    rfl
  have hadv : (s0.notifyMid ((v:ℚ) : WithBot ℚ)).advance_generation r
      = some { t with count := 0 } :=
    advance_eq_of_foldlM hfold0
  have hnot : s0.notify_evaluation ((v:ℚ) : WithBot ℚ) r
      = (s0.notifyMid ((v:ℚ) : WithBot ℚ)).advance_generation r := by
    rw [notify_eq,
      if_pos (show s0.count + 1 = s0.hp.num_particles from rfl)]
  refine ⟨{ t with count := 0 }, hnot.trans hadv, ?_, ?_⟩
  · show (derefParticle t.particles t.best_global).best_value = _
    rw [hbg, hsel]
    show (t.particles.getD 0 default).best_value = _
    rw [((updateStep_sameBests ht).2.2.2.2 0).2.1, hq]
    exact (notifyP_improve himp).1
  · intro k
    show (derefParticle t.particles t.best_global).x k = _
    rw [hbg, hsel]
    show (t.particles.getD 0 default).x k = _
    rw [hx k, hv k]
    have hgx : (derefParticle s1.particles s1.best_global).x = p0.x := by
      rw [hsel]
      show (s1.particles.getD 0 default).x = p0.x
      rw [hq, notifyP_x]
    have hqx : (s1.particles.getD 0 default).x = p0.x := by
      rw [hq, notifyP_x]
    have hqv : (s1.particles.getD 0 default).v = p0.v := by
      rw [hq, notifyP_v]
    rw [hgx, hqx, hqv]
    show p0.x k + (s1.hp.inertia_weight * p0.v k
      + (r 0).1 * s1.hp.cognitive_parameter * (p0.x k - p0.x k)
      + (r 0).2 * s1.hp.social_parameter * (p0.x k - p0.x k))
      = p0.x k + w * p0.v k
    have hw : s1.hp.inertia_weight = w := rfl
    rw [hw]
    ring

/-- C8: `get_position_to_evaluate` returns `particles[count].x`, leaves the
state unchanged, and a second call without an intervening
`notify_evaluation` returns the identical vector. -/
theorem get_position_to_evaluate_pure (s : ParticleSwarmOptimization) :
    (s.get_position_to_evaluate).1 = (s.particles.getD s.count default).x ∧
    (s.get_position_to_evaluate).2 = s ∧
    ((s.get_position_to_evaluate).2.get_position_to_evaluate).1
      = (s.get_position_to_evaluate).1 :=
  ⟨rfl, rfl, rfl⟩

lemma uniform_mem {l u t : ℚ} (hlu : l ≤ u) (h0 : 0 ≤ t) (h1 : t ≤ 1) :
    l ≤ l + t * (u - l) ∧ l + t * (u - l) ≤ u := by
  constructor
  · nlinarith
  · nlinarith

/-- C9: at construction every particle's position is within the bounds and
its velocity within `±(upper - lower)` componentwise; exactly
`num_particles` particles are built, plus one extra randomly placed particle
held as the initial `best_global` with `best_value = -inf`. -/
theorem init_within_bounds (hp : Params) (lower upper : Vec)
    (r : ℕ → Vec × Vec) (hle : ∀ k, lower k ≤ upper k)
    (hu : ∀ i k, 0 ≤ (r i).1 k ∧ (r i).1 k ≤ 1)
    (hv : ∀ i k, 0 ≤ (r i).2 k ∧ (r i).2 k ≤ 1) :
    (ParticleSwarmOptimization.init hp lower upper r).particles.length
      = hp.num_particles ∧
    (∀ p ∈ (ParticleSwarmOptimization.init hp lower upper r).particles, ∀ k,
      lower k ≤ p.x k ∧ p.x k ≤ upper k ∧
      -(upper k - lower k) ≤ p.v k ∧ p.v k ≤ upper k - lower k) ∧
    ∃ q : Particle,
      (ParticleSwarmOptimization.init hp lower upper r).best_global
        = BestRef.extra q ∧ q.best_value = ⊥ ∧
      ∀ k, lower k ≤ q.x k ∧ q.x k ≤ upper k := by
  have hpart : ∀ (i : ℕ) (k : ℕ),
      lower k ≤ (Particle.init lower upper (r i).1 (r i).2).x k ∧
      (Particle.init lower upper (r i).1 (r i).2).x k ≤ upper k ∧
      -(upper k - lower k) ≤ (Particle.init lower upper (r i).1 (r i).2).v k ∧
      (Particle.init lower upper (r i).1 (r i).2).v k ≤ upper k - lower k := by
    intro i k
    have hx := uniform_mem (hle k) (hu i k).1 (hu i k).2
    have hvk := uniform_mem (t := (r i).2 k)
      (neg_le_self_iff.mpr (sub_nonneg.mpr (hle k)) :
        -(upper k - lower k) ≤ upper k - lower k)
      (hv i k).1 (hv i k).2
    refine ⟨hx.1, hx.2, ?_, ?_⟩
    · simp only [Particle.init, vsub]
      nlinarith [hvk.1]
    · simp only [Particle.init, vsub]
      nlinarith [hvk.2]
  refine ⟨by simp [ParticleSwarmOptimization.init], ?_, ?_⟩
  · intro p hp k
    simp only [ParticleSwarmOptimization.init, List.mem_map,
      List.mem_range] at hp
    obtain ⟨i, _, rfl⟩ := hp
    exact hpart i k
  · refine ⟨Particle.init lower upper (r hp.num_particles).1
      (r hp.num_particles).2, rfl, rfl, fun k => ?_⟩
    exact ⟨(hpart hp.num_particles k).1, (hpart hp.num_particles k).2.1⟩

/-- C9 witness: the bound and draw hypotheses hold for concrete inputs. -/
theorem init_within_bounds_witness :
    (ParticleSwarmOptimization.init ⟨2, 1, 1, 1⟩ (fun _ => 0) (fun _ => 1)
        (fun _ => (fun _ => 1/2, fun _ => 1/2))).particles.length = 2 ∧
    (∀ p ∈ (ParticleSwarmOptimization.init ⟨2, 1, 1, 1⟩ (fun _ => 0)
        (fun _ => 1) (fun _ => (fun _ => 1/2, fun _ => 1/2))).particles, ∀ k,
      (fun _ : ℕ => (0:ℚ)) k ≤ p.x k ∧ p.x k ≤ (fun _ : ℕ => (1:ℚ)) k ∧
      -((fun _ : ℕ => (1:ℚ)) k - (fun _ : ℕ => (0:ℚ)) k) ≤ p.v k ∧
      p.v k ≤ (fun _ : ℕ => (1:ℚ)) k - (fun _ : ℕ => (0:ℚ)) k) ∧
    ∃ q : Particle,
      (ParticleSwarmOptimization.init ⟨2, 1, 1, 1⟩ (fun _ => 0) (fun _ => 1)
        (fun _ => (fun _ => 1/2, fun _ => 1/2))).best_global
        = BestRef.extra q ∧ q.best_value = ⊥ ∧
      ∀ k, (fun _ : ℕ => (0:ℚ)) k ≤ q.x k ∧ q.x k ≤ (fun _ : ℕ => (1:ℚ)) k :=
  init_within_bounds ⟨2, 1, 1, 1⟩ (fun _ => 0) (fun _ => 1)
    (fun _ => (fun _ => 1/2, fun _ => 1/2))
    (fun _ => by norm_num) (fun _ _ => by norm_num) (fun _ _ => by norm_num)
